import Mathlib

/-!
Shallow embedding of the inventory HTTP service (src/index.js).

The service keeps an in-memory array `inventory` of items and a counter
`nextId`.  Route handlers are modelled as pure functions from a registry
state (plus the request data) to a response value paired with the next
registry state.  JavaScript `null`/`undefined` values are modelled with
`Option`; an object property that may be absent is an `Option` field; JS
string truthiness (`""` is falsy) is modelled explicitly.  Item ids are
modelled as `Nat`: every id the service itself assigns is a positive
integer, and `Number(...)` coercion of a request key is modelled by
`jsToNumber`, where `none` stands for `NaN` (or any numeric value that
strict equality can never make equal to a stored `Nat` id).
-/

/-- A stored inventory item, as built by the `POST /register` handler.
`photo_url` models the property that the `POST /search` handler may attach
to the stored object as a side effect: `none` means the property is absent,
`some none` means it is present with value `null`, `some (some u)` means it
is present with the URL string `u`. -/
structure Item where
  id : Nat
  inventory_name : String
  description : String
  photo : Option String
  photo_url : Option (Option String) := none
deriving Repr, DecidableEq

/-- The mutable module-level state of src/index.js: `const inventory = []`
and `let nextId = 1`. -/
structure RegistryState where
  inventory : List Item
  nextId : Nat
deriving Repr, DecidableEq

/-- The state at process start: empty collection, `nextId = 1`. -/
def initState : RegistryState := { inventory := [], nextId := 1 }

/-- Accumulator pass of decimal parsing: `none` when a non-digit occurs. -/
def decDigits (acc : Nat) : List Char → Option Nat
  | [] => some acc
  | c :: cs => if c.isDigit then decDigits (acc * 10 + (c.toNat - 48)) cs else none

/-- JavaScript `Number(s)` restricted to what can compare equal to a `Nat`
id under `===`: the empty string coerces to `0`, a string of decimal digits
to its value, and everything else (NaN, fractional, negative, ...) to
`none`, which strict equality with a `Nat` id always rejects. -/
def jsToNumber (s : String) : Option Nat :=
  decDigits 0 s.data

/-- JS truthiness of a possibly-absent string value (`!x` is true exactly
when `x` is absent or the empty string). -/
def jsTruthy : Option String → Bool
  | none => false
  | some s => s != ""

/-- JS `x || null` for a possibly-absent string `x` (used for
`req.file?.filename || null`). -/
def jsOrNull : Option String → Option String
  | none => none
  | some s => if s = "" then none else some s

/-- The template string `http://${host}:${port}/images/${photo}`. -/
def imageUrl (host port photo : String) : String :=
  "http://" ++ host ++ ":" ++ port ++ "/images/" ++ photo

/-- `const getItem = id => inventory.find(x => x.id === Number(id))`.
When `Number(id)` is `NaN` (our `none`) the strict equality fails for every
element, so `find` returns `undefined`. -/
def getItem (inv : List Item) (id : String) : Option Item :=
  match jsToNumber id with
  | none => none
  | some n => inv.find? (fun x => x.id == n)

/-- Response of the `POST /register` handler. -/
inductive RegisterResult where
  | validationError
  | created (item : Item)
deriving Repr, DecidableEq

/-- The `POST /register` handler: rejects a falsy `inventory_name` with 400
and otherwise builds the item `{ id: nextId++, inventory_name,
description: req.body.description || "", photo: req.file?.filename || null }`,
pushes it and answers 201.  `file` is the multer-generated filename of the
uploaded file, when one was uploaded. -/
def register (st : RegistryState) (inventory_name : Option String)
    (description : Option String) (file : Option String) :
    RegisterResult × RegistryState :=
  if jsTruthy inventory_name = false then (.validationError, st)
  else
    let item : Item :=
      { id := st.nextId
        inventory_name := inventory_name.getD ""
        description := description.getD ""
        photo := jsOrNull file
        photo_url := none }
    (.created item, { inventory := st.inventory ++ [item], nextId := st.nextId + 1 })

/-- The JSON body of a `PUT /inventory/:id` request, restricted to the
properties of the item schema (plus `photo_url`, which `Object.assign`
copies just like any other key).  A field is `none` when the key is absent
from the body and `some v` when it is present with value `v`. -/
structure UpdateBody where
  id : Option Nat := none
  inventory_name : Option String := none
  description : Option String := none
  photo : Option (Option String) := none
  photo_url : Option (Option (Option String)) := none
deriving Repr, DecidableEq

/-- `Object.assign(item, body)`: every key present in `body` overwrites the
corresponding field of `item`; absent keys leave the field untouched. -/
def applyAssign (i : Item) (b : UpdateBody) : Item :=
  { id := b.id.getD i.id
    inventory_name := b.inventory_name.getD i.inventory_name
    description := b.description.getD i.description
    photo := b.photo.getD i.photo
    photo_url := b.photo_url.getD i.photo_url }

/-- Replace the first element whose `id` equals `n` by `it` (the effect on
the array of mutating the object returned by `find`). -/
def replaceById (inv : List Item) (n : Nat) (it : Item) : List Item :=
  match inv with
  | [] => []
  | x :: xs => if x.id == n then it :: xs else x :: replaceById xs n it

/-- Remove the first element whose `id` equals `n` (the effect of
`inventory.splice(inventory.findIndex(x => x.id === n), 1)`). -/
def removeFirstById (inv : List Item) (n : Nat) : List Item :=
  match inv with
  | [] => []
  | x :: xs => if x.id == n then xs else x :: removeFirstById xs n

/-- The `PUT /inventory/:id` handler: 404 when the id matches no item,
otherwise `Object.assign(item, req.body)` on the stored item and the
updated item in the response. -/
def updateFields (st : RegistryState) (id : String) (body : UpdateBody) :
    Option Item × RegistryState :=
  match getItem st.inventory id with
  | none => (none, st)
  | some i =>
    let iNew := applyAssign i body
    (some iNew, { st with inventory := replaceById st.inventory i.id iNew })

/-- Response of the `PUT /inventory/:id/photo` handler. -/
inductive UpdatePhotoResult where
  | notFound
  | validationError
  | updated (item : Item)
deriving Repr, DecidableEq

/-- The `PUT /inventory/:id/photo` handler: 404 when the id matches no
item, then 400 when no file was uploaded, otherwise
`item.photo = req.file.filename` on the stored item. -/
def updatePhoto (st : RegistryState) (id : String) (file : Option String) :
    UpdatePhotoResult × RegistryState :=
  match getItem st.inventory id with
  | none => (.notFound, st)
  | some i =>
    match file with
    | none => (.validationError, st)
    | some f =>
      let iNew : Item := { i with photo := some f }
      (.updated iNew, { st with inventory := replaceById st.inventory i.id iNew })

/-- The `DELETE /inventory/:id` handler: `findIndex` on the coerced id,
404 when it is -1, otherwise `splice(index, 1)`.  The `Bool` is `true`
exactly when the deletion happened (200). -/
def deleteItem (st : RegistryState) (id : String) : Bool × RegistryState :=
  match jsToNumber id with
  | none => (false, st)
  | some n =>
    if (st.inventory.find? (fun x => x.id == n)).isSome then
      (true, { st with inventory := removeFirstById st.inventory n })
    else (false, st)

/-- The response shape of `GET /inventory` and `GET /inventory/:id`:
`{ ...item, photo_url: item.photo ? url : null }`.  The spread copies the
item's schema fields and the trailing explicit `photo_url` key always wins,
so the decorated object always carries a `photo_url` property. -/
structure DecoratedItem where
  id : Nat
  inventory_name : String
  description : String
  photo : Option String
  photo_url : Option String
deriving Repr, DecidableEq

/-- The expression `i.photo ? imageUrl(...) : null` that appears in the
list, get and search handlers (truthiness: an empty string photo also
yields `null`). -/
def freshPhotoUrl (host port : String) (i : Item) : Option String :=
  match i.photo with
  | some p => if p = "" then none else some (imageUrl host port p)
  | none => none

/-- The stored item after the search handler has executed
`item.photo_url = item.photo ? imageUrl : null` on it. -/
def searchedItem (host port : String) (i : Item) : Item :=
  { i with photo_url := some (freshPhotoUrl host port i) }

/-- Build the decorated view of an item:
`{ ...i, photo_url: i.photo ? imageUrl : null }`. -/
def decorate (host port : String) (i : Item) : DecoratedItem :=
  { id := i.id
    inventory_name := i.inventory_name
    description := i.description
    photo := i.photo
    photo_url := freshPhotoUrl host port i }

/-- The `GET /inventory` handler: maps `decorate` over the collection and
leaves the state untouched. -/
def listInventory (st : RegistryState) (host port : String) :
    List DecoratedItem × RegistryState :=
  (st.inventory.map (decorate host port), st)

/-- The `GET /inventory/:id` handler: 404 when the id matches no item,
otherwise the decorated item; the state is untouched. -/
def getInventory (st : RegistryState) (host port : String) (id : String) :
    Option DecoratedItem × RegistryState :=
  match getItem st.inventory id with
  | none => (none, st)
  | some i => (some (decorate host port i), st)

/-- The `POST /search` handler: 404 when the id matches no item; when
`has_photo` is truthy it assigns
`item.photo_url = item.photo ? imageUrl : null` ON THE STORED ITEM and then
responds with that (mutated) stored object. -/
def search (st : RegistryState) (host port : String) (id : String)
    (has_photo : Bool) : Option Item × RegistryState :=
  match getItem st.inventory id with
  | none => (none, st)
  | some i =>
    if has_photo then
      let iNew : Item := searchedItem host port i
      (some iNew, { st with inventory := replaceById st.inventory i.id iNew })
    else (some i, st)

/-- One state-mutating request against the service (the read-only routes
`GET /inventory`, `GET /inventory/:id` and `GET /inventory/:id/photo`
return the state unchanged by construction). -/
inductive Op where
  | registerOp (name description file : Option String)
  | updateOp (id : String) (body : UpdateBody)
  | updatePhotoOp (id : String) (file : Option String)
  | deleteOp (id : String)
  | searchOp (id : String) (has_photo : Bool)
deriving Repr, DecidableEq

/-- The state transition of a single request. -/
def stepOp (host port : String) (st : RegistryState) : Op → RegistryState
  | .registerOp n d f => (register st n d f).2
  | .updateOp id b => (updateFields st id b).2
  | .updatePhotoOp id f => (updatePhoto st id f).2
  | .deleteOp id => (deleteItem st id).2
  | .searchOp id hp => (search st host port id hp).2

/-- Run a sequence of requests from a state. -/
def runOps (host port : String) (st : RegistryState) (ops : List Op) :
    RegistryState :=
  ops.foldl (stepOp host port) st

/-- The ids of the items currently in the collection, in order. -/
def idsOf (inv : List Item) : List Nat := inv.map Item.id

/-- The registry invariant: pairwise distinct ids, all below `nextId`. -/
def RegistryInvariant (st : RegistryState) : Prop :=
  (idsOf st.inventory).Nodup ∧ ∀ i ∈ st.inventory, i.id < st.nextId

/-- `true` unless the op is a field update whose body contains an `id`
key (the one request that can rewrite a stored id). -/
def noIdOverride : Op → Bool
  | .updateOp _ b => b.id == none
  | _ => true

/-- A concrete stored item used to exercise the handlers. -/
def itemW : Item :=
  { id := 1, inventory_name := "Widget", description := "old", photo := some "f.jpg" }

/-- A concrete one-item registry: `itemW` stored, `nextId = 2`. -/
def stW : RegistryState := { inventory := [itemW], nextId := 2 }

/-- A field-update body carrying only a `description` key. -/
def bDescOnly : UpdateBody := { description := some "new" }

/-- The item that registering the name "Widget" in a fresh registry builds. -/
def itemWidget1 : Item :=
  { id := 1, inventory_name := "Widget", description := "", photo := none }

/-- The registry state right after that first registration. -/
def stWidget1 : RegistryState := { inventory := [itemWidget1], nextId := 2 }

/-- A stored item whose `photo` is present but equal to the empty string
(reachable through a `PUT /inventory/:id` body `{photo: ""}`). -/
def itemEmptyPhoto : Item :=
  { id := 1, inventory_name := "W", description := "", photo := some "" }

/-- A concrete request sequence: register, delete, register again. -/
def opsDemo : List Op :=
  [.registerOp (some "Widget") none none,
   .deleteOp "1",
   .registerOp (some "Gadget") none none]

/-- The first request of `opsDemo` on its own. -/
def opsDemoPrefix : List Op := [.registerOp (some "Widget") none none]

/-- The remaining requests of `opsDemo`: delete item 1, register again. -/
def opsDemoSuffix : List Op :=
  [.deleteOp "1", .registerOp (some "Gadget") none none]

/-- The item the second successful registration of `opsDemo` creates. -/
def itemGadget2 : Item :=
  { id := 2, inventory_name := "Gadget", description := "", photo := none }

/-- The item a further registration after `opsDemo` creates: id 3, not a
reuse of the deleted id 1. -/
def itemHook3 : Item :=
  { id := 3, inventory_name := "Hook", description := "", photo := none }

/-- The registry state after `opsDemo` and that further registration. -/
def stHook : RegistryState :=
  { inventory := [itemGadget2, itemHook3], nextId := 4 }

/- ### Helper lemmas -/

theorem find_id_eq {inv : List Item} {n : Nat} {i : Item}
    (h : inv.find? (fun x => x.id == n) = some i) : i.id = n := by
  have := List.find?_some h
  simpa using this

theorem getItem_some {inv : List Item} {id : String} {i : Item}
    (h : getItem inv id = some i) :
    ∃ n, jsToNumber id = some n ∧ i.id = n ∧ i ∈ inv := by
  unfold getItem at h
  cases hn : jsToNumber id with
  | none => rw [hn] at h; exact absurd h (by simp)
  | some n =>
    rw [hn] at h
    exact ⟨n, rfl, find_id_eq h, List.mem_of_find?_eq_some h⟩

theorem find_split {inv : List Item} {n : Nat} {i : Item}
    (h : inv.find? (fun x => x.id == n) = some i) (it : Item) :
    ∃ pre post, inv = pre ++ i :: post ∧ (∀ x ∈ pre, x.id ≠ n) ∧
      replaceById inv n it = pre ++ it :: post := by
  induction inv with
  | nil => simp [List.find?] at h
  | cons x xs ih =>
    by_cases hx : x.id = n
    · have hb : (x.id == n) = true := by simp [hx]
      simp only [List.find?, hb, Option.some.injEq] at h
      subst h
      exact ⟨[], xs, rfl, by simp, by simp [replaceById, hx]⟩
    · have hb : (x.id == n) = false := by simp [hx]
      simp only [List.find?, hb] at h
      obtain ⟨pre, post, heq, hpre, hrep⟩ := ih h
      refine ⟨x :: pre, post, by rw [List.cons_append, heq], ?_, ?_⟩
      · intro y hy
        rcases List.mem_cons.mp hy with rfl | hy2
        · exact hx
        · exact hpre y hy2
      · simp [replaceById, hx, hrep]

theorem replaceById_idsOf {inv : List Item} {n : Nat} {it : Item}
    (h : it.id = n) : idsOf (replaceById inv n it) = idsOf inv := by
  induction inv with
  | nil => rfl
  | cons x xs ih =>
    by_cases hx : x.id = n
    · simp [replaceById, hx, idsOf, h]
    · simp [replaceById, hx, idsOf] at ih ⊢
      exact ih

theorem mem_replaceById {inv : List Item} {n : Nat} {it x : Item}
    (h : x ∈ replaceById inv n it) : x = it ∨ x ∈ inv := by
  induction inv with
  | nil => simp [replaceById] at h
  | cons y ys ih =>
    by_cases hy : y.id = n
    · simp [replaceById, hy] at h
      rcases h with rfl | h2
      · exact Or.inl rfl
      · exact Or.inr (List.mem_cons_of_mem _ h2)
    · simp [replaceById, hy] at h
      rcases h with rfl | h2
      · exact Or.inr (List.mem_cons_self _ _)
      · rcases ih h2 with h3 | h3
        · exact Or.inl h3
        · exact Or.inr (List.mem_cons_of_mem _ h3)

theorem mem_replaceById_other {inv : List Item} {n : Nat} {it x : Item}
    (hx : x ∈ inv) (hne : x.id ≠ n) : x ∈ replaceById inv n it := by
  induction inv with
  | nil => simp at hx
  | cons y ys ih =>
    by_cases hy : y.id = n
    · simp only [replaceById, hy, beq_self_eq_true, if_true, List.mem_cons]
      rcases List.mem_cons.mp hx with rfl | h2
      · exact absurd hy hne
      · exact Or.inr h2
    · have hb : (y.id == n) = false := by simp [hy]
      simp only [replaceById, hb, Bool.false_eq_true, if_false, List.mem_cons]
      rcases List.mem_cons.mp hx with rfl | h2
      · exact Or.inl rfl
      · exact Or.inr (ih h2)

theorem removeFirstById_sublist (inv : List Item) (n : Nat) :
    List.Sublist (removeFirstById inv n) inv := by
  induction inv with
  | nil => simp [removeFirstById]
  | cons x xs ih =>
    by_cases hx : x.id = n
    · simp [removeFirstById, hx]
    · simpa [removeFirstById, hx] using ih.cons₂ x

theorem find?_append_first {p : Item → Bool} {pre : List Item}
    (hpre : ∀ x ∈ pre, p x = false) {it : Item} (hit : p it = true)
    (post : List Item) : (pre ++ it :: post).find? p = some it := by
  induction pre with
  | nil => simp only [List.nil_append, List.find?, hit]
  | cons y ys ih =>
    have hy : p y = false := hpre y (List.mem_cons_self _ _)
    rw [List.cons_append]
    simp only [List.find?, hy]
    exact ih fun x hx => hpre x (List.mem_cons_of_mem _ hx)

theorem getItem_replace_preserved {inv : List Item} {id : String} {i it : Item}
    (h : getItem inv id = some i) (hid : it.id = i.id) :
    getItem (replaceById inv i.id it) id = some it := by
  obtain ⟨n, hn, hin, _⟩ := getItem_some h
  unfold getItem at h ⊢
  rw [hn] at h ⊢
  obtain ⟨pre, post, _, hpre, hrep⟩ := find_split h it
  rw [hin, hrep]
  refine find?_append_first (fun x hx => by simp [hpre x hx]) (by simp [hid, hin]) post

theorem register_state_ids {st : RegistryState} {nm d f : Option String}
    (h : jsTruthy nm = true) :
    idsOf (register st nm d f).2.inventory = idsOf st.inventory ++ [st.nextId] ∧
      (register st nm d f).2.nextId = st.nextId + 1 := by
  simp [register, h, idsOf]

theorem register_created {st st2 : RegistryState} {nm d f : Option String}
    {it : Item} (h : register st nm d f = (.created it, st2)) :
    it.id = st.nextId ∧
      st2 = { inventory := st.inventory ++ [it], nextId := st.nextId + 1 } := by
  unfold register at h
  cases ht : jsTruthy nm with
  | false => rw [ht] at h; simp at h
  | true =>
    rw [ht] at h
    simp only [Bool.true_eq_false, if_false, Prod.mk.injEq,
      RegisterResult.created.injEq] at h
    obtain ⟨rfl, rfl⟩ := h
    exact ⟨rfl, rfl⟩

theorem invariant_register {st : RegistryState} (hInv : RegistryInvariant st)
    (nm d f : Option String) : RegistryInvariant (register st nm d f).2 := by
  obtain ⟨hnd, hlt⟩ := hInv
  cases ht : jsTruthy nm with
  | false => simpa [register, ht] using ⟨hnd, hlt⟩
  | true =>
    constructor
    · rw [(register_state_ids ht).1]
      rw [List.nodup_append]
      refine ⟨hnd, List.nodup_singleton _, ?_⟩
      intro a ha hb
      simp [idsOf] at ha hb
      obtain ⟨x, hx, hxa⟩ := ha
      subst hb
      exact absurd (hxa ▸ hlt x hx) (lt_irrefl _)
    · intro x hx
      simp [register, ht] at hx
      rcases hx with hx | hx
      · calc x.id < st.nextId := hlt x hx
          _ < (register st nm d f).2.nextId := by simp [register, ht]
      · simp [hx, register, ht]

theorem invariant_replace_same_id {st : RegistryState} {i it : Item}
    (hInv : RegistryInvariant st) (hi : i ∈ st.inventory) (hid : it.id = i.id) :
    RegistryInvariant
      { st with inventory := replaceById st.inventory i.id it } := by
  obtain ⟨hnd, hlt⟩ := hInv
  constructor
  · simpa [replaceById_idsOf hid] using hnd
  · intro x hx
    rcases mem_replaceById hx with rfl | hmem
    · exact hid ▸ hlt i hi
    · exact hlt x hmem

theorem invariant_delete {st : RegistryState} (hInv : RegistryInvariant st)
    (id : String) : RegistryInvariant (deleteItem st id).2 := by
  obtain ⟨hnd, hlt⟩ := hInv
  unfold deleteItem
  cases hn : jsToNumber id with
  | none => exact ⟨hnd, hlt⟩
  | some n =>
    by_cases hf : (st.inventory.find? (fun x => x.id == n)).isSome
    · simp only [hf, if_true]
      constructor
      · exact List.Nodup.sublist ((removeFirstById_sublist st.inventory n).map Item.id) hnd
      · intro x hx
        exact hlt x ((removeFirstById_sublist st.inventory n).subset hx)
    · simp only [hf, if_false]
      exact ⟨hnd, hlt⟩

theorem stepOp_invariant (host port : String) {st : RegistryState} {op : Op}
    (hInv : RegistryInvariant st) (hop : noIdOverride op = true) :
    RegistryInvariant (stepOp host port st op) := by
  cases op with
  | registerOp nm d f => exact invariant_register hInv nm d f
  | updateOp id b =>
    have hb : b.id = none := by simpa [noIdOverride] using hop
    show RegistryInvariant (updateFields st id b).2
    unfold updateFields
    cases hg : getItem st.inventory id with
    | none => exact hInv
    | some i =>
      obtain ⟨n, _, _, hmem⟩ := getItem_some hg
      exact invariant_replace_same_id hInv hmem (by simp [applyAssign, hb])
  | updatePhotoOp id f =>
    show RegistryInvariant (updatePhoto st id f).2
    unfold updatePhoto
    cases hg : getItem st.inventory id with
    | none => exact hInv
    | some i =>
      obtain ⟨n, _, _, hmem⟩ := getItem_some hg
      cases f with
      | none => exact hInv
      | some fn => exact invariant_replace_same_id hInv hmem rfl
  | deleteOp id => exact invariant_delete hInv id
  | searchOp id hp =>
    show RegistryInvariant (search st host port id hp).2
    unfold search
    cases hg : getItem st.inventory id with
    | none => exact hInv
    | some i =>
      obtain ⟨n, _, _, hmem⟩ := getItem_some hg
      cases hp with
      | false => exact hInv
      | true => exact invariant_replace_same_id hInv hmem rfl

theorem runOps_invariant (host port : String) {st : RegistryState}
    {ops : List Op} (hops : ops.all noIdOverride = true)
    (hInv : RegistryInvariant st) :
    RegistryInvariant (runOps host port st ops) := by
  induction ops generalizing st with
  | nil => exact hInv
  | cons op rest ih =>
    simp only [List.all_cons, Bool.and_eq_true] at hops
    exact ih hops.2 (stepOp_invariant host port hInv hops.1)

theorem stepOp_nextId_mono (host port : String) (st : RegistryState) (op : Op) :
    st.nextId ≤ (stepOp host port st op).nextId := by
  cases op with
  | registerOp nm d f =>
    show st.nextId ≤ (register st nm d f).2.nextId
    cases ht : jsTruthy nm with
    | false => simp [register, ht]
    | true => simp [register, ht]
  | updateOp id b =>
    show st.nextId ≤ (updateFields st id b).2.nextId
    unfold updateFields
    cases getItem st.inventory id <;> simp
  | updatePhotoOp id f =>
    show st.nextId ≤ (updatePhoto st id f).2.nextId
    unfold updatePhoto
    cases getItem st.inventory id with
    | none => simp
    | some i => cases f <;> simp
  | deleteOp id =>
    show st.nextId ≤ (deleteItem st id).2.nextId
    unfold deleteItem
    cases jsToNumber id with
    | none => simp
    | some n =>
      by_cases hf : (st.inventory.find? (fun x => x.id == n)).isSome <;>
        simp [hf]
  | searchOp id hp =>
    show st.nextId ≤ (search st host port id hp).2.nextId
    unfold search
    cases getItem st.inventory id with
    | none => simp
    | some i => cases hp <;> simp

theorem runOps_nextId_mono (host port : String) (st : RegistryState)
    (ops : List Op) : st.nextId ≤ (runOps host port st ops).nextId := by
  induction ops generalizing st with
  | nil => exact le_refl _
  | cons op rest ih =>
    exact le_trans (stepOp_nextId_mono host port st op) (ih _)

theorem runOps_append (host port : String) (st : RegistryState)
    (l1 l2 : List Op) : runOps host port st (l1 ++ l2) =
      runOps host port (runOps host port st l1) l2 := by
  simp [runOps, List.foldl_append]

theorem initState_invariant : RegistryInvariant initState := by
  constructor
  · simp [initState, idsOf]
  · intro i hi
    simp [initState] at hi

/- ### Claim theorems -/

/-- C1 counterexample: the claim quantifies over every reachable state, but
`PUT /inventory/:id` blindly `Object.assign`s the request body onto the
stored item, so a body carrying an `id` key can duplicate an existing id:
after two registrations and an update of item 1 with body `{id: 2}`, the
collection holds two items with id 2. -/
theorem claim1_counterexample :
    ¬ (idsOf (runOps "h" "3000" initState
        [.registerOp (some "a") none none,
         .registerOp (some "b") none none,
         .updateOp "1" { id := some 2 }]).inventory).Nodup := by decide

/-- C1 (amended): in every state reachable by requests whose field-update
bodies never carry an `id` key, all stored ids are pairwise distinct and
strictly below `nextId`; `nextId` never decreases under any further
requests; a successful register assigns exactly the current `nextId` (so an
id strictly greater than every stored id) and bumps `nextId` past it; and
every id stored at ANY earlier point of the run — including ids whose item
was deleted afterwards — is strictly smaller than the id a register assigns
at the end of the run, so deletion never causes an id to be reassigned. -/
theorem registry_ids_unique_monotone (host port : String) (ops : List Op)
    (hops : ops.all noIdOverride = true) :
    (idsOf (runOps host port initState ops).inventory).Nodup ∧
    (∀ i ∈ (runOps host port initState ops).inventory,
        i.id < (runOps host port initState ops).nextId) ∧
    (∀ more, (runOps host port initState ops).nextId ≤
        (runOps host port (runOps host port initState ops) more).nextId) ∧
    (∀ nm d f it st2,
        register (runOps host port initState ops) nm d f = (.created it, st2) →
          it.id = (runOps host port initState ops).nextId ∧
          (∀ i ∈ (runOps host port initState ops).inventory, i.id < it.id) ∧
          st2.nextId = it.id + 1) ∧
    (∀ ops1 ops2, ops = ops1 ++ ops2 →
        ∀ i ∈ (runOps host port initState ops1).inventory,
          ∀ nm d f it st2,
            register (runOps host port initState ops) nm d f =
              (.created it, st2) → i.id < it.id) := by
  obtain ⟨hnd, hlt⟩ := runOps_invariant host port hops initState_invariant
  refine ⟨hnd, hlt, fun more => runOps_nextId_mono host port _ more, ?_, ?_⟩
  · intro nm d f it st2 h
    obtain ⟨hid, hst⟩ := register_created h
    refine ⟨hid, fun i hi => hid ▸ hlt i hi, ?_⟩
    rw [hst, hid]
  · intro ops1 ops2 hsplit i hi nm d f it st2 h
    obtain ⟨hid, _⟩ := register_created h
    have hops1 : ops1.all noIdOverride = true := by
      rw [hsplit, List.all_append, Bool.and_eq_true] at hops
      exact hops.1
    obtain ⟨_, hlt1⟩ := runOps_invariant host port hops1 initState_invariant
    have h1 : i.id < (runOps host port initState ops1).nextId := hlt1 i hi
    have h2 : (runOps host port initState ops1).nextId ≤
        (runOps host port initState ops).nextId := by
      rw [hsplit, runOps_append]
      exact runOps_nextId_mono host port _ ops2
    rw [hid]
    exact lt_of_lt_of_le h1 h2

/-- C1 witness: on the concrete register/delete/register sequence the
no-id-override hypothesis holds, item 1 exists after the first request and
is gone at the end, ids stay distinct, and a further register on the final
state assigns id 3 — applying the theorem's prefix conjunct shows the
deleted id 1 is strictly below it, i.e. it is not reused. -/
theorem claim1_witness :
    opsDemo.all noIdOverride = true ∧
    opsDemo = opsDemoPrefix ++ opsDemoSuffix ∧
    itemWidget1 ∈ (runOps "h" "3000" initState opsDemoPrefix).inventory ∧
    itemWidget1 ∉ (runOps "h" "3000" initState opsDemo).inventory ∧
    register (runOps "h" "3000" initState opsDemo) (some "Hook") none none =
      (.created itemHook3, stHook) ∧
    itemWidget1.id < itemHook3.id ∧
    idsOf (runOps "h" "3000" initState opsDemo).inventory = [2] ∧
    (idsOf (runOps "h" "3000" initState opsDemo).inventory).Nodup := by
  refine ⟨by decide, by decide, by decide, by decide, by decide, ?_,
    by decide, by decide⟩
  exact (registry_ids_unique_monotone "h" "3000" opsDemo (by decide)).2.2.2.2
    opsDemoPrefix opsDemoSuffix (by decide) itemWidget1 (by decide)
    (some "Hook") none none itemHook3 stHook (by decide)

/-- C2: on an existing item, `PUT /inventory/:id` overwrites exactly the
fields named in the body (`Object.assign` semantics): a named field takes
the body's value, an unnamed field keeps its stored value; the stored item
is replaced in place, every other item and `nextId` are untouched, and the
updated item is returned. -/
theorem updateFields_shallow_merge (st : RegistryState) (id : String)
    (b : UpdateBody) (i : Item) (h : getItem st.inventory id = some i) :
    updateFields st id b =
      (some (applyAssign i b),
        { st with inventory := replaceById st.inventory i.id (applyAssign i b) }) ∧
    (b.inventory_name = none →
        (applyAssign i b).inventory_name = i.inventory_name) ∧
    (∀ v, b.inventory_name = some v → (applyAssign i b).inventory_name = v) ∧
    (b.description = none → (applyAssign i b).description = i.description) ∧
    (∀ v, b.description = some v → (applyAssign i b).description = v) ∧
    (b.photo = none → (applyAssign i b).photo = i.photo) ∧
    (∀ v, b.photo = some v → (applyAssign i b).photo = v) ∧
    (b.photo_url = none → (applyAssign i b).photo_url = i.photo_url) ∧
    (updateFields st id b).2.nextId = st.nextId ∧
    (∀ x ∈ st.inventory, x.id ≠ i.id →
        x ∈ (updateFields st id b).2.inventory) := by
  refine ⟨by simp [updateFields, h], ?_, ?_, ?_, ?_, ?_, ?_, ?_, ?_, ?_⟩
  · intro hb; simp [applyAssign, hb]
  · intro v hb; simp [applyAssign, hb]
  · intro hb; simp [applyAssign, hb]
  · intro v hb; simp [applyAssign, hb]
  · intro hb; simp [applyAssign, hb]
  · intro v hb; simp [applyAssign, hb]
  · intro hb; simp [applyAssign, hb]
  · simp [updateFields, h]
  · intro x hx hne
    simp only [updateFields, h]
    exact mem_replaceById_other hx hne

/-- C2 witness: updating only `description` on the concrete one-item state
leaves `inventory_name` and `photo` unchanged and rewrites `description`. -/
theorem claim2_witness :
    getItem stW.inventory "1" = some itemW ∧
    (updateFields stW "1" bDescOnly).2.inventory.map Item.description = ["new"] ∧
    (updateFields stW "1" bDescOnly).2.inventory.map Item.inventory_name = ["Widget"] ∧
    (updateFields stW "1" bDescOnly).2.inventory.map Item.photo = [some "f.jpg"] := by
  have h := updateFields_shallow_merge stW "1" bDescOnly itemW (by decide)
  rw [h.1]
  exact ⟨by decide, by decide, by decide, by decide⟩

/-- C3 counterexample: the id IS alterable: updating the stored item of id
1 with a body containing `id: 99` leaves the collection holding an item
whose id is 99, not 1. -/
theorem claim3_counterexample :
    ((updateFields stW "1" { id := some 99 }).2.inventory.map Item.id) = [99] ∧
      (99 : Nat) ≠ 1 := by
  decide

/-- C3 (amended): `Object.assign` copies every key of the body, so the id is
preserved exactly when the body carries no `id` key: in that case the
updated stored item keeps its original id and the multiset of stored ids is
unchanged. -/
theorem updateFields_id_preserved_when_absent (st : RegistryState)
    (id : String) (b : UpdateBody) (i : Item)
    (h : getItem st.inventory id = some i) (hb : b.id = none) :
    (updateFields st id b).1 = some (applyAssign i b) ∧
    (applyAssign i b).id = i.id ∧
    getItem (updateFields st id b).2.inventory id = some (applyAssign i b) ∧
    idsOf (updateFields st id b).2.inventory = idsOf st.inventory := by
  have hid : (applyAssign i b).id = i.id := by simp [applyAssign, hb]
  refine ⟨by simp [updateFields, h], hid, ?_, ?_⟩
  · simp only [updateFields, h]
    exact getItem_replace_preserved h hid
  · simp only [updateFields, h]
    exact replaceById_idsOf hid

/-- C3 witness: the description-only update on the concrete state keeps
id 1 stored under key "1". -/
theorem claim3_witness :
    getItem stW.inventory "1" = some itemW ∧ bDescOnly.id = none ∧
    (updateFields stW "1" bDescOnly).2.inventory.map Item.id = [1] := by
  have h := updateFields_id_preserved_when_absent stW "1" bDescOnly itemW
    (by decide) (by decide)
  refine ⟨by decide, by decide, ?_⟩
  have := h.2.2.2
  simpa [stW, itemW, idsOf] using this

/-- C4: registering with an absent or empty `inventory_name` answers 400
and returns the state unchanged — no item is appended and `nextId` is not
bumped — so any later register behaves exactly as if the failed call had
never happened (in particular it receives the same id). -/
theorem register_validation_atomic (st : RegistryState)
    (nm d f : Option String) (h : jsTruthy nm = false) :
    register st nm d f = (.validationError, st) ∧
    (register st nm d f).2.inventory = st.inventory ∧
    (register st nm d f).2.nextId = st.nextId ∧
    (∀ nm2 d2 f2, register (register st nm d f).2 nm2 d2 f2 =
        register st nm2 d2 f2) := by
  have h1 : register st nm d f = (.validationError, st) := by
    simp [register, h]
  exact ⟨h1, by rw [h1], by rw [h1], fun nm2 d2 f2 => by rw [h1]⟩

/-- C4 witness: the empty name is rejected on the concrete state and the
state survives unchanged. -/
theorem claim4_witness :
    jsTruthy (some "") = false ∧
    register stW (some "") (some "d") none = (.validationError, stW) :=
  ⟨by decide, (register_validation_atomic stW (some "") (some "d") none
    (by decide)).1⟩

/-- C5: registering with a truthy name answers 201 with a fresh item that
is appended to the collection: its id is the current `nextId` (so `1` in a
fresh registry), its name is the given name, its description is the given
one or `""` when absent, its photo is the uploaded file's (non-empty,
multer-generated) filename or `null` when no file was uploaded, and its
decorated view then has `photo_url = null` exactly when no file was
uploaded. -/
theorem register_success (st : RegistryState) (nm d f : Option String)
    (host port : String) (h : jsTruthy nm = true) :
    ∃ it : Item,
      register st nm d f = (.created it,
        { inventory := st.inventory ++ [it], nextId := st.nextId + 1 }) ∧
      it.id = st.nextId ∧
      (∀ s, nm = some s → it.inventory_name = s) ∧
      it.description = d.getD "" ∧
      (f = none → it.photo = none) ∧
      (∀ s, f = some s → s ≠ "" → it.photo = some s) ∧
      it.photo_url = none ∧
      (f = none → (decorate host port it).photo_url = none) ∧
      register initState (some "Widget") none none =
        (.created itemWidget1, stWidget1) := by
  refine ⟨{ id := st.nextId, inventory_name := nm.getD "",
            description := d.getD "", photo := jsOrNull f,
            photo_url := none },
    by simp [register, h], rfl, ?_, rfl, ?_, ?_, rfl, ?_, by decide⟩
  · intro s hs; simp [hs]
  · intro hf; simp [hf, jsOrNull]
  · intro s hs hne; simp [hs, jsOrNull, hne]
  · intro hf; simp [hf, jsOrNull, decorate, freshPhotoUrl]

/-- C5 witness: the "Widget" scenario on the fresh registry: id 1, empty
description, no photo, decorated `photo_url` null. -/
theorem claim5_witness :
    jsTruthy (some "Widget") = true ∧
    register initState (some "Widget") none none =
      (.created itemWidget1, stWidget1) := by
  obtain ⟨it, _, _, _, _, _, _, _, _, h9⟩ :=
    register_success initState (some "Widget") none none "h" "3000" (by decide)
  exact ⟨by decide, h9⟩

/-- C6 counterexample: the decoration follows JS truthiness, not presence:
for a stored item whose `photo` is the empty string — reachable, e.g., via
a `PUT /inventory/:id` body `{photo: ""}` — the photo is present yet
`photo_url` is `null` rather than `baseURL ++ "/images/" ++ ""`. -/
theorem claim6_counterexample :
    itemEmptyPhoto.photo = some "" ∧
    (decorate "h" "3000" itemEmptyPhoto).photo_url = none ∧
    (none : Option String) ≠
      some (("http://" ++ "h" ++ ":" ++ "3000") ++ "/images/" ++ "") := by
  decide

/-- C6 (amended): decoration builds a fresh decorated value: `photo_url` is
`null` when `photo` is absent or the empty string and
`baseURL ++ "/images/" ++ photo` when `photo` is a non-empty string; the
remaining fields are copied verbatim; and the read routes `GET /inventory`
and `GET /inventory/:id` return the registry state unchanged (the derived
`photo_url` is never written back to the stored item).  `decorate` is a
pure Lean function, so identical inputs give identical output by
construction. -/
theorem present_contract (host port : String) (i : Item)
    (st : RegistryState) (id : String) :
    (i.photo = none → (decorate host port i).photo_url = none) ∧
    (i.photo = some "" → (decorate host port i).photo_url = none) ∧
    (∀ p, i.photo = some p → p ≠ "" →
        (decorate host port i).photo_url = some (imageUrl host port p)) ∧
    (∀ p, imageUrl host port p =
        ("http://" ++ host ++ ":" ++ port) ++ "/images/" ++ p) ∧
    (decorate host port i).id = i.id ∧
    (decorate host port i).inventory_name = i.inventory_name ∧
    (decorate host port i).description = i.description ∧
    (decorate host port i).photo = i.photo ∧
    listInventory st host port = (st.inventory.map (decorate host port), st) ∧
    getInventory st host port id =
      ((getItem st.inventory id).map (decorate host port), st) := by
  refine ⟨?_, ?_, ?_, ?_, rfl, rfl, rfl, rfl, rfl, ?_⟩
  · intro hp; simp [decorate, freshPhotoUrl, hp]
  · intro hp; simp [decorate, freshPhotoUrl, hp]
  · intro p hp hne; simp [decorate, freshPhotoUrl, hp, hne]
  · intro p; simp [imageUrl, String.append_assoc]
  · unfold getInventory
    cases getItem st.inventory id <;> simp

/-- C6 witness: on the concrete stored item with photo `"f.jpg"`, the
decorated view carries the full URL and the read routes leave the concrete
state untouched. -/
theorem claim6_witness :
    itemW.photo = some "f.jpg" ∧
    (decorate "h" "3000" itemW).photo_url =
      some (imageUrl "h" "3000" "f.jpg") ∧
    (getInventory stW "h" "3000" "1").2 = stW := by
  have h := present_contract "h" "3000" itemW stW "1"
  refine ⟨by decide, h.2.2.1 "f.jpg" (by decide) (by decide), ?_⟩
  rw [h.2.2.2.2.2.2.2.2.2]

/-- C7: `POST /search` is a mutating read: on an existing item with a
truthy `has_photo` flag it attaches a `photo_url` property to the stored
item object itself (null when no photo, the full URL otherwise), replacing
it in the collection; the state genuinely changes whenever the property was
previously absent, a subsequent `get` finds the polluted object, and the
subsequent list/get responses for that item carry a `photo_url` field (the
decorated view always does, recomputed over the polluted item). -/
theorem search_mutating_read (st : RegistryState) (host port id : String)
    (i : Item) (h : getItem st.inventory id = some i) :
    ∃ iNew : Item,
      search st host port id true =
        (some iNew,
          { st with inventory := replaceById st.inventory i.id iNew }) ∧
      iNew.id = i.id ∧ iNew.photo = i.photo ∧
      iNew.inventory_name = i.inventory_name ∧
      iNew.description = i.description ∧
      iNew.photo_url = some (freshPhotoUrl host port i) ∧
      (i.photo = none → iNew.photo_url = some none) ∧
      (∀ p, i.photo = some p → p ≠ "" →
          iNew.photo_url = some (some (imageUrl host port p))) ∧
      getItem (search st host port id true).2.inventory id = some iNew ∧
      getInventory (search st host port id true).2 host port id =
        (some (decorate host port iNew), (search st host port id true).2) ∧
      decorate host port iNew ∈
        (listInventory (search st host port id true).2 host port).1 ∧
      (i.photo_url = none → (search st host port id true).2 ≠ st) := by
  have hsearch : search st host port id true =
      (some (searchedItem host port i),
        { st with inventory :=
            replaceById st.inventory i.id (searchedItem host port i) }) := by
    simp [search, h]
  have hget : getItem (search st host port id true).2.inventory id =
      some (searchedItem host port i) := by
    rw [hsearch]
    exact getItem_replace_preserved h rfl
  refine ⟨searchedItem host port i,
    hsearch, rfl, rfl, rfl, rfl, rfl, ?_, ?_, hget, ?_, ?_, ?_⟩
  · intro hp; simp [searchedItem, freshPhotoUrl, hp]
  · intro p hp hne; simp [searchedItem, freshPhotoUrl, hp, hne]
  · simp [getInventory, hget]
  · obtain ⟨n, _, _, hmem⟩ := getItem_some hget
    exact List.mem_map_of_mem (decorate host port) hmem
  · intro hpu heq
    rw [heq] at hget
    have hii : i = searchedItem host port i :=
      Option.some.inj (h.symm.trans hget)
    have h2 := congrArg Item.photo_url hii
    rw [hpu] at h2
    exact Option.noConfusion h2

/-- C7 witness: searching the concrete one-item state with `has_photo`
set finds the item and leaves the registry state changed. -/
theorem claim7_witness :
    getItem stW.inventory "1" = some itemW ∧
    (search stW "h" "3000" "1" true).2 ≠ stW := by
  obtain ⟨iNew, hs⟩ :=
    search_mutating_read stW "h" "3000" "1" itemW (by decide)
  exact ⟨by decide, hs.2.2.2.2.2.2.2.2.2.2.2 (by decide)⟩

/-- C8: `getItem` coerces the key with `Number(...)` before the strict
comparison: the lookup fails exactly when no stored item's id equals the
coerced key; a non-numeric key (NaN) matches nothing and gives `NotFound`
rather than a type error; and `GET /inventory/:id` answers 404 on a failed
lookup, the decorated item on a successful one, and never changes the
state. -/
theorem get_lookup_coercion (st : RegistryState) (host port id : String) :
    (getItem st.inventory id = none ↔
      ∀ i ∈ st.inventory, jsToNumber id ≠ some i.id) ∧
    (jsToNumber id = none → getItem st.inventory id = none) ∧
    (getInventory st host port id).2 = st ∧
    (getItem st.inventory id = none →
        getInventory st host port id = (none, st)) ∧
    (∀ i, getItem st.inventory id = some i →
        getInventory st host port id = (some (decorate host port i), st)) := by
  refine ⟨?_, ?_, ?_, ?_, ?_⟩
  · unfold getItem
    cases hn : jsToNumber id with
    | none => simp
    | some n =>
      simp only [List.find?_eq_none, beq_iff_eq, ne_eq, Option.some.injEq]
      constructor
      · intro hf i hi hc
        exact hf i hi hc.symm
      · intro hall x hx hc
        exact hall x hx hc.symm
  · intro hn; unfold getItem; rw [hn]
  · unfold getInventory; cases getItem st.inventory id <;> simp
  · intro hg; simp [getInventory, hg]
  · intro i hg; simp [getInventory, hg]

/-- C8 witness: on the concrete state, the non-numeric key "abc" and the
unmatched numeric key "999" both give 404 with the state unchanged, and
key "1" finds the item. -/
theorem claim8_witness :
    jsToNumber "abc" = none ∧
    getInventory stW "h" "3000" "abc" = (none, stW) ∧
    getInventory stW "h" "3000" "999" = (none, stW) ∧
    getInventory stW "h" "3000" "1" = (some (decorate "h" "3000" itemW), stW) := by
  refine ⟨by decide, ?_, ?_, ?_⟩
  · exact (get_lookup_coercion stW "h" "3000" "abc").2.2.2.1 (by decide)
  · exact (get_lookup_coercion stW "h" "3000" "999").2.2.2.1 (by decide)
  · exact (get_lookup_coercion stW "h" "3000" "1").2.2.2.2 itemW (by decide)

/-- C9: `PUT /inventory/:id/photo` answers 404 when the id matches no item;
400 when the item exists but no file was uploaded (state unchanged in both
cases); and otherwise rewrites exactly the stored item's `photo` field to
the uploaded filename, returns the updated item, and leaves every other
item in place. -/
theorem updatePhoto_contract (st : RegistryState) (id : String)
    (file : Option String) :
    (getItem st.inventory id = none →
        updatePhoto st id file = (.notFound, st)) ∧
    (∀ i, getItem st.inventory id = some i → file = none →
        updatePhoto st id file = (.validationError, st)) ∧
    (∀ i f, getItem st.inventory id = some i → file = some f →
        updatePhoto st id file =
          (.updated { i with photo := some f },
            { st with inventory :=
                replaceById st.inventory i.id { i with photo := some f } }) ∧
        getItem (updatePhoto st id file).2.inventory id =
          some { i with photo := some f } ∧
        (∀ x ∈ st.inventory, x.id ≠ i.id →
            x ∈ (updatePhoto st id file).2.inventory)) := by
  refine ⟨?_, ?_, ?_⟩
  · intro hg; simp [updatePhoto, hg]
  · intro i hg hf; subst hf; simp [updatePhoto, hg]
  · intro i f hg hf
    subst hf
    have hpair : updatePhoto st id (some f) =
        (.updated { i with photo := some f },
          { st with inventory :=
              replaceById st.inventory i.id { i with photo := some f } }) := by
      simp [updatePhoto, hg]
    refine ⟨hpair, ?_, ?_⟩
    · rw [hpair]
      exact getItem_replace_preserved hg rfl
    · intro x hx hne
      rw [hpair]
      exact mem_replaceById_other hx hne

/-- C9 witness: concrete checks of all three branches on the one-item
state. -/
theorem claim9_witness :
    updatePhoto stW "99" none = (.notFound, stW) ∧
    updatePhoto stW "1" none = (.validationError, stW) ∧
    (updatePhoto stW "1" (some "g.jpg")).1 =
      .updated { itemW with photo := some "g.jpg" } := by
  refine ⟨(updatePhoto_contract stW "99" none).1 (by decide),
    (updatePhoto_contract stW "1" none).2.1 itemW (by decide) rfl, ?_⟩
  have h := ((updatePhoto_contract stW "1" (some "g.jpg")).2.2 itemW "g.jpg"
    (by decide) rfl).1
  rw [h]

/-- C10: in `PUT /inventory/:id/photo` the existence check runs before the
file check: a request naming a nonexistent id with no file gets 404
(`notFound`), not 400 (`validationError`). -/
theorem updatePhoto_notFound_precedence (st : RegistryState) (id : String)
    (h : getItem st.inventory id = none) :
    updatePhoto st id none = (.notFound, st) ∧
    (updatePhoto st id none).1 ≠ .validationError := by
  have h1 : updatePhoto st id none = (.notFound, st) := by
    simp [updatePhoto, h]
  refine ⟨h1, ?_⟩
  rw [h1]
  simp

/-- C10 witness: id 99 does not exist in the concrete state; with no file
the answer is 404. -/
theorem claim10_witness :
    getItem stW.inventory "99" = none ∧
    updatePhoto stW "99" none = (.notFound, stW) :=
  ⟨by decide, (updatePhoto_notFound_precedence stW "99" (by decide)).1⟩
